import Mathlib

/-!
Verification development for the ad-creative image compositor
(`services/image_compositor.py`).  Python strings are modelled as lists of
characters, PIL font handles as records of their observable behaviour
(`getbbox`, `size`), the `emoji` library's `emoji_list` as an abstract
detector, and all I/O (filesystem font probing, HTTP fetches, storage
writes) as explicit environments whose fallible operations return
`Except`.  Raised Python exceptions are modelled as `Except.error`;
`try/except` blocks are the points where an `Except` is matched and turned
into a structured result dictionary.
-/

/-- Python `str` modelled as a list of characters. -/
abbrev Str := List Char

/-- Python slicing `text[a:b]` (for `0 ≤ a ≤ b`). -/
def sliceStr (s : Str) (a b : Nat) : Str :=
  (s.drop a).take (b - a)

/-- Scanner for Python `str.split()`: `acc` is the word currently being
accumulated; whitespace flushes it (when non-empty) and is otherwise
dropped. -/
def splitWordsAux : Str → Str → List Str
  | [], acc => if acc.isEmpty then [] else [acc]
  | c :: cs, acc =>
    if c.isWhitespace then
      (if acc.isEmpty then splitWordsAux cs [] else acc :: splitWordsAux cs [])
    else splitWordsAux cs (acc ++ [c])

/-- Python `str.split()` (no separator): split on whitespace runs and drop
empty pieces.  Translated from the behaviour used at
`image_compositor.py:222` (`words = text.split()`). -/
def splitWords (s : Str) : List Str := splitWordsAux s []

/-- Python `' '.join(words)` (`image_compositor.py:227,234,238`). -/
def joinWords : List Str → Str
  | [] => []
  | [w] => w
  | w :: ws => w ++ ' ' :: joinWords ws

/-- A word as produced by Python `str.split()`: non-empty and containing no
whitespace characters. -/
def goodWord (w : Str) : Prop :=
  w ≠ [] ∧ ∀ c ∈ w, c.isWhitespace = false

/-- One match returned by `emoji.emoji_list`: start/end offsets into the
text, plus the matched emoji substring. -/
structure EmojiEntry where
  matchStart : Nat
  matchEnd : Nat
  emoji : Str
deriving DecidableEq

/-- The `emoji` library, abstracted to the one operation the compositor
uses (`emoji.emoji_list(text)` at `image_compositor.py:181`). -/
structure EmojiDetector where
  emojiList : Str → List EmojiEntry

/-- Well-formedness of an `emoji_list` result, as the library guarantees
it: matches are ordered, non-overlapping, in bounds, start before they
end, and each `emoji` field is exactly the matched slice of the text.
The first argument is a lower bound on where the next match may start. -/
def entriesWFb (s : Str) : Nat → List EmojiEntry → Bool
  | _, [] => true
  | lb, e :: rest =>
    decide (lb ≤ e.matchStart) && decide (e.matchStart < e.matchEnd) &&
    decide (e.matchEnd ≤ s.length) && decide (e.emoji = sliceStr s e.matchStart e.matchEnd) &&
    entriesWFb s e.matchEnd rest

/-- Loop body of `_iter_text_segments` (`image_compositor.py:185-195`):
walk the matches, emitting the plain gap before each emoji (when
non-empty), the emoji itself, and finally the plain tail. -/
def segLoop (text : Str) : Nat → List EmojiEntry → List (Str × Bool)
  | last, [] =>
    if last < text.length then [(sliceStr text last text.length, false)] else []
  | last, e :: rest =>
    (if e.matchStart > last then [(sliceStr text last e.matchStart, false)] else []) ++
      (e.emoji, true) :: segLoop text e.matchEnd rest

/-- `ImageCompositor._iter_text_segments` (`image_compositor.py:180-196`). -/
def iterTextSegments (d : EmojiDetector) (text : Str) : List (Str × Bool) :=
  let entries := d.emojiList text
  if entries.isEmpty then (if text.isEmpty then [] else [(text, false)])
  else segLoop text 0 entries

/-- A PIL `getbbox` result `(x0, y0, x1, y1)`. -/
structure BBox where
  x0 : Int
  y0 : Int
  x1 : Int
  y1 : Int
deriving DecidableEq

/-- A loaded font, modelled by the observable behaviour the compositor
relies on: the nominal pixel size and the bounding box it reports for a
string. -/
structure FontHandle where
  size : Int
  getbbox : Str → BBox

/-- `ImageCompositor._emoji_render_size` (`image_compositor.py:155-156`):
`max(12, int(font.size * 0.95))`.  The Python multiplies by the float
`0.95`; for the integer sizes the compositor uses this truncates to
`size * 95 / 100` (toward-zero division). -/
def emojiRenderSize (font : FontHandle) : Int :=
  max 12 (Int.tdiv (font.size * 95) 100)

/-- `ImageCompositor._measure_text_mixed` (`image_compositor.py:198-213`):
sum segment widths, emoji segments counting a fixed square, plain segments
their font bbox width; empty segments are skipped. -/
def measureTextMixed (d : EmojiDetector) (text : Str) (font : FontHandle) : Int :=
  let emojiSize : Int := emojiRenderSize font
  (iterTextSegments d text).foldl
    (fun width seg =>
      if seg.1.isEmpty then width
      else if seg.2 then width + emojiSize
      else width + ((font.getbbox seg.1).x1 - (font.getbbox seg.1).x0)) 0

/-- Greedy word-accumulation loop of `_wrap_text`
(`image_compositor.py:226-238`).  The Python appends joined strings to
`lines`; here each line is kept as its word list and joined at the end,
which yields the same line strings. -/
def wrapLoop (measure : Str → Int) (maxWidth : Int) :
    List Str → List Str → List (List Str)
  | [], current => if current = [] then [] else [current]
  | w :: ws, current =>
    let testLine := joinWords (current ++ [w])
    if measure testLine ≤ maxWidth then
      wrapLoop measure maxWidth ws (current ++ [w])
    else if current = [] then wrapLoop measure maxWidth ws [w]
    else current :: wrapLoop measure maxWidth ws [w]

/-- `ImageCompositor._wrap_text` (`image_compositor.py:215-240`). -/
def wrapText (d : EmojiDetector) (text : Str) (font : FontHandle) (maxWidth : Int) :
    List Str :=
  (wrapLoop (fun s => measureTextMixed d s font) maxWidth (splitWords text) []).map joinWords

/-- Python `str.upper()` as used on hook/CTA text. -/
def toUpper (s : Str) : Str := s.map Char.toUpper

/-- The filesystem and font loader seen by `_find_font`: `Path(p).exists()`
and `ImageFont.truetype(p, size)` (which may raise, modelled as `none`),
plus `ImageFont.load_default()` which always succeeds. -/
structure FontEnv where
  pathExists : String → Bool
  loadTruetype : String → Int → Option FontHandle
  loadDefault : FontHandle

/-- `ImageCompositor.FONT_PATHS` (`image_compositor.py:60-101`). -/
def FONT_PATHS : List (String × List String) :=
  [("impact",
    ["/usr/share/fonts/truetype/dejavu/DejaVuSans-Bold.ttf",
     "/System/Library/Fonts/Supplemental/Arial Bold.ttf",
     "/System/Library/Fonts/Supplemental/Impact.ttf",
     "/usr/share/fonts/truetype/liberation/LiberationSans-Bold.ttf",
     "/usr/share/fonts/truetype/msttcorefonts/Impact.ttf",
     "C:\\Windows\\Fonts\\impact.ttf"]),
   ("arial_bold",
    ["/usr/share/fonts/truetype/dejavu/DejaVuSans-Bold.ttf",
     "/System/Library/Fonts/Supplemental/Arial Bold.ttf",
     "/Library/Fonts/Arial Bold.ttf",
     "/usr/share/fonts/truetype/liberation/LiberationSans-Bold.ttf",
     "/usr/share/fonts/truetype/msttcorefonts/Arial_Bold.ttf",
     "C:\\Windows\\Fonts\\arialbd.ttf"]),
   ("helvetica_bold",
    ["/usr/share/fonts/truetype/dejavu/DejaVuSans-Bold.ttf",
     "/usr/share/fonts/truetype/liberation/LiberationSans-Bold.ttf",
     "/System/Library/Fonts/Helvetica.ttc",
     "/Library/Fonts/Helvetica.ttc"]),
   ("arial",
    ["/usr/share/fonts/truetype/dejavu/DejaVuSans.ttf",
     "/System/Library/Fonts/Supplemental/Arial.ttf",
     "/Library/Fonts/Arial.ttf",
     "/usr/share/fonts/truetype/liberation/LiberationSans-Regular.ttf",
     "/usr/share/fonts/truetype/msttcorefonts/Arial.ttf",
     "C:\\Windows\\Fonts\\arial.ttf"]),
   ("liberation",
    ["/usr/share/fonts/truetype/dejavu/DejaVuSans.ttf",
     "/usr/share/fonts/truetype/liberation/LiberationSans-Regular.ttf",
     "/System/Library/Fonts/Supplemental/Arial.ttf"]),
   ("noto_emoji",
    ["/usr/share/fonts/truetype/noto/NotoColorEmoji.ttf"])]

/-- Candidate loop of `_find_font` (`image_compositor.py:146-153`): first
existing path whose truetype load succeeds wins; otherwise the built-in
default bitmap font. -/
def findFontFrom (env : FontEnv) (size : Int) : List String → FontHandle
  | [] => env.loadDefault
  | p :: ps =>
    if env.pathExists p then
      match env.loadTruetype p size with
      | some f => f
      | none => findFontFrom env size ps
    else findFontFrom env size ps

/-- `ImageCompositor._find_font` (`image_compositor.py:142-153`):
`FONT_PATHS.get(font_name, FONT_PATHS["impact"])` then the candidate loop.
The inner `getD []` default is dead: `"impact"` is a key of `FONT_PATHS`. -/
def findFont (env : FontEnv) (fontName : String) (size : Int) : FontHandle :=
  findFontFrom env size
    ((FONT_PATHS.lookup fontName).getD ((FONT_PATHS.lookup "impact").getD []))

/-- A safe-zone margin profile (`top`, `bottom`, `left`, `right`). -/
structure SafeZone where
  top : Int
  bottom : Int
  left : Int
  right : Int
deriving DecidableEq

/-- `ImageCompositor.SAFE_ZONES` (`image_compositor.py:18-49`). -/
def SAFE_ZONES : List (String × SafeZone) :=
  [("tiktok", ⟨160, 480, 60, 60⟩),
   ("instagram_reels", ⟨108, 320, 60, 120⟩),
   ("instagram_story", ⟨250, 250, 65, 65⟩),
   ("youtube_shorts", ⟨120, 200, 60, 60⟩),
   ("none", ⟨40, 40, 40, 40⟩)]

/-- `ImageCompositor.SIZE_TO_SAFE_ZONE` (`image_compositor.py:128-136`). -/
def SIZE_TO_SAFE_ZONE : List (String × String) :=
  [("tiktok", "tiktok"),
   ("tiktok_square", "none"),
   ("instagram_reels", "instagram_reels"),
   ("instagram_story", "instagram_story"),
   ("youtube_shorts", "youtube_shorts"),
   ("facebook_story", "instagram_story")]

/-- `ImageCompositor._get_safe_zone` (`image_compositor.py:779-787`).
The final `SAFE_ZONES[zone_name]` dictionary access is modelled as a
lookup returning `Option` (a miss would be a raised `KeyError`). -/
def getSafeZone (outputSize : String) (safeZone : String) : Option SafeZone :=
  let zoneName :=
    if safeZone = "auto" then (SIZE_TO_SAFE_ZONE.lookup outputSize).getD "none"
    else if (SAFE_ZONES.lookup safeZone).isSome then safeZone
    else "none"
  SAFE_ZONES.lookup zoneName

/-- `ImageCompositor.SIZES` (`image_compositor.py:104-125`). -/
def SIZES : List (String × (Nat × Nat)) :=
  [("instagram_square", (1080, 1080)),
   ("instagram_story", (1080, 1920)),
   ("instagram_reels", (1080, 1920)),
   ("instagram_portrait", (1080, 1350)),
   ("instagram_landscape", (1080, 566)),
   ("tiktok", (1080, 1920)),
   ("tiktok_square", (1080, 1080)),
   ("facebook_feed", (1200, 628)),
   ("facebook_story", (1080, 1920)),
   ("twitter", (1200, 675)),
   ("twitter_portrait", (1080, 1350)),
   ("youtube_thumbnail", (1280, 720)),
   ("youtube_shorts", (1080, 1920)),
   ("telegram", (1280, 720))]

/-- `self.SIZES.get(output_size, self.SIZES["instagram_square"])`
(`image_compositor.py:431`; also line 372, 833, 1002).  The inner
`getD (0, 0)` default is dead: `"instagram_square"` is a key of `SIZES`. -/
def resolveTargetSize (outputSize : String) : Nat × Nat :=
  (SIZES.lookup outputSize).getD ((SIZES.lookup "instagram_square").getD (0, 0))

/-- The fixed inter-block gap of the white-background branch
(`gap_size = 70`, `image_compositor.py:526`). -/
def evenGapSize : Int := 70

/-- One block of the white-background branch.  `centerHeight` is the
precomputed `block_height` that enters `total_content_height`
(`image_compositor.py:501,508,517,519`); `drawnHeight` is the vertical
extent the drawing loop actually advances past the block: the summed line
heights for text blocks (`image_compositor.py:543-558`, equal to
`centerHeight` there), but for a button CTA the `_draw_cta_button` return
value `(getbbox(lines[0])[3] - getbbox(lines[0])[1]) + 2 * padding_v`
(`image_compositor.py:536-541,750-777`), which need not equal the
precomputed `getbbox(cta_text)[3] + 50`. -/
structure EvenBlock where
  centerHeight : Int
  drawnHeight : Int
deriving DecidableEq

/-- Vertical advance of the white-background drawing loop
(`image_compositor.py:535-562`) at block granularity: each block occupies
its drawn height, and `evenGapSize` is added after every block but the
last.  Returns each block's (top, bottom). -/
def evenPositions (y : Int) : List EvenBlock → List (Int × Int)
  | [] => []
  | b :: bs =>
    (y, y + b.drawnHeight) :: evenPositions (y + b.drawnHeight + evenGapSize) bs

/-- White-background vertical layout (`image_compositor.py:522-562`):
`total_content_height = total_text_height + gap_size * max(1, blocks - 1)`
over the precomputed block heights and `y_offset = (height -
total_content_height) // 2` (Python `//` is floor division, `Int.fdiv`);
the drawing loop then advances by each block's drawn height. -/
def evenLayout (canvasHeight : Int) (blocks : List EvenBlock) : List (Int × Int) :=
  let numGaps : Int := max 1 ((blocks.length : Int) - 1)
  let totalContentHeight :=
    (blocks.map EvenBlock.centerHeight).sum + evenGapSize * numGaps
  let y0 := Int.fdiv (canvasHeight - totalContentHeight) 2
  evenPositions y0 blocks

/-- Gaps between consecutive blocks of a layout: next top minus previous
bottom. -/
def gapsOf : List (Int × Int) → List Int
  | (_, b) :: (c, d) :: rest => (c - b) :: gapsOf ((c, d) :: rest)
  | _ => []

/-- `MIN_FONT_SIZE = 28` (`image_compositor.py:475`). -/
def minFontSize : Int := 28

/-- Height of a wrapped line plus fixed spacing, via the font's bbox. -/
def lineHeightPlus (font : FontHandle) (spacing : Int) (line : Str) : Int :=
  (font.getbbox line).y1 - (font.getbbox line).y0 + spacing

/-- Total height of the bottom (body + CTA) blocks at a given body size,
per one iteration of the shrink loop (`image_compositor.py:592-615`):
body wrapped at `size` with 8px spacing; CTA at
`max(int(65 * size / 65), 28) = max(size, 28)` uppercased, plus a 25px gap
when both blocks are present; a button CTA contributes
`getbbox(cta_text).y1 + 50` instead of its lines. -/
def bottomBlocksTotalHeight (env : FontEnv) (d : EmojiDetector)
    (bodyText ctaText : Str) (maxTextWidth : Int) (ctaStyle : String)
    (size : Int) : Int :=
  let bodyPart :=
    if bodyText.isEmpty then 0
    else
      let bodyFont := findFont env "liberation" size
      ((wrapText d bodyText bodyFont maxTextWidth).map
        (lineHeightPlus bodyFont 8)).sum
  let ctaPart :=
    if ctaText.isEmpty then 0
    else
      let ctaSize := Int.tdiv (65 * size) 65
      let ctaFont := findFont env "liberation" (max ctaSize minFontSize)
      let ctaLines := wrapText d (toUpper ctaText) ctaFont maxTextWidth
      let gap := if bodyText.isEmpty then 0 else 25
      if ctaStyle = "button" then gap + (ctaFont.getbbox ctaText).y1 + 50
      else gap + (ctaLines.map (lineHeightPlus ctaFont 8)).sum
  bodyPart + ctaPart

/-- The shrink-to-fit `while` loop (`image_compositor.py:591-619`),
entered at size 65 (`BODY_SIZE`): compute the total bottom-block height at
the current size; stop if it fits within `limit`; otherwise decrement by 3
and repeat while the size stays at or above the 28px floor.  Returns the
final `current_body_size` and the last computed `total_height` — on floor
exhaustion the size has been decremented below the floor but the height is
the one measured at the last size tried, exactly as the Python loop leaves
its variables. -/
def shrinkLoop (f : Int → Int) (limit : Int) (size : Int) : Int × Int :=
  let th := f size
  if th ≤ limit then (size, th)
  else if minFontSize ≤ size - 3 then shrinkLoop f limit (size - 3)
  else (size - 3, th)
termination_by (size - 25).toNat
decreasing_by
  simp only [minFontSize] at *
  omega

/-- A PIL image, abstracted to its pixel dimensions (the compositor's
control flow never branches on pixel content; pixel painting mutates the
buffer in place and is not observable in the result dictionary). -/
structure Image where
  width : Nat
  height : Nat
deriving DecidableEq

/-- `Image.new("RGB", target_size, ...)`. -/
def imageNew (t : Nat × Nat) : Image := ⟨t.1, t.2⟩

/-- `ImageCompositor._resize_and_crop` (`image_compositor.py:683-709`):
scale to cover then centre-crop; the crop box is exactly
`target_w × target_h`, so the result always has the target dimensions. -/
def resizeAndCrop (_img : Image) (target : Nat × Nat) : Image :=
  ⟨target.1, target.2⟩

/-- `not image_source or image_source.lower() in ("white", "blank", "none", "")`
(`image_compositor.py:437,489`). -/
def isBlankSource (s : String) : Bool :=
  s.isEmpty || s.toLower = "white" || s.toLower = "blank" || s.toLower = "none"

/-- The keyword arguments of `ImageCompositor.compose` that the model
tracks (the ones that influence control flow or geometry). -/
structure ComposeArgs where
  imageSource : String
  hookText : Str
  bodyText : Str
  ctaText : Str
  outputSize : String
  safeZone : String
  ctaStyle : String
  boldHook : Bool
  ctaEmoji : Bool
deriving DecidableEq

/-- External collaborators of a compose call: the font loader, the emoji
library, HTTP image fetching, local file opening, and the storage
service's `save` (returning `(filename, url)`). -/
structure ComposeEnv where
  fonts : FontEnv
  emojiDet : EmojiDetector
  fetchImage : String → Except String Image
  openImage : String → Except String Image
  storageSave : String → Except String (String × String)

/-- The `" 👇"` suffix appended to the CTA when `cta_emoji` is set
(`image_compositor.py:485-486`). -/
def ctaPointerSuffix : Str := [' ', '👇']

/-- Blocks of the white-background branch
(`image_compositor.py:495-520`): hook at size 72 (bold `"impact"` when
`bold_hook`, else `"liberation"`) uppercased with 6px spacing; body at 65
with 8px spacing; CTA at 65 uppercased with 6px spacing.  Text blocks are
drawn line by line, so their drawn height equals the precomputed height.
A button CTA centers with `getbbox(cta_text)[3] + 50` but is drawn via
`_draw_cta_button(lines[0], ...)`, which advances by
`(getbbox(lines[0])[3] - getbbox(lines[0])[1]) + 40`; `lines[0]` is
modelled as `headD []` (on a whitespace-only CTA the subscript raises
`IndexError` at draw time, caught by the surrounding `try`).  Empty blocks
are absent. -/
def whiteBgBlocks (fe : FontEnv) (d : EmojiDetector) (a : ComposeArgs)
    (maxTextWidth : Int) : List EvenBlock :=
  let hookFontName := if a.boldHook then "impact" else "liberation"
  let hookPart :=
    if a.hookText.isEmpty then []
    else
      let hookFont := findFont fe hookFontName 72
      let hh := ((wrapText d (toUpper a.hookText) hookFont maxTextWidth).map
        (lineHeightPlus hookFont 6)).sum
      [EvenBlock.mk hh hh]
  let bodyPart :=
    if a.bodyText.isEmpty then []
    else
      let bodyFont := findFont fe "liberation" 65
      let bh := ((wrapText d a.bodyText bodyFont maxTextWidth).map
        (lineHeightPlus bodyFont 8)).sum
      [EvenBlock.mk bh bh]
  let ctaPart :=
    if a.ctaText.isEmpty then []
    else
      let ctaFont := findFont fe "liberation" 65
      if a.ctaStyle = "button" then
        let firstLine := (wrapText d (toUpper a.ctaText) ctaFont maxTextWidth).headD []
        [EvenBlock.mk ((ctaFont.getbbox a.ctaText).y1 + 50)
          ((ctaFont.getbbox firstLine).y1 - (ctaFont.getbbox firstLine).y0 + 40)]
      else
        let ch := ((wrapText d (toUpper a.ctaText) ctaFont maxTextWidth).map
          (lineHeightPlus ctaFont 6)).sum
        [EvenBlock.mk ch ch]
  hookPart ++ bodyPart ++ ctaPart

/-- Vertical geometry of one compose call (the is_white_bg branch uses the
even-distribution layout, `image_compositor.py:491-562`; the photo branch
anchors body+CTA at the bottom via the shrink loop,
`image_compositor.py:564-656`).  `int(height * 0.60)` is modelled as
`6 * h / 10` rounded down (the Python float product can differ by one
pixel for some heights; no claim depends on the exact boundary). -/
def composeLayout (env : ComposeEnv) (a : ComposeArgs) (h : Int)
    (margins : SafeZone) (maxTextWidth : Int) : List (Int × Int) :=
  if isBlankSource a.imageSource then
    evenLayout h (whiteBgBlocks env.fonts env.emojiDet a maxTextWidth)
  else
    let maxBottomY := h - margins.bottom
    let minBodyY := Int.fdiv (6 * h) 10
    if a.bodyText.isEmpty && a.ctaText.isEmpty then []
    else
      let f := bottomBlocksTotalHeight env.fonts env.emojiDet a.bodyText
        a.ctaText maxTextWidth a.ctaStyle
      let st := shrinkLoop f (maxBottomY - minBodyY) 65
      let yStart := max (maxBottomY - st.2) minBodyY
      [(yStart, yStart + st.2)]

/-- The success payload assembled at `image_compositor.py:670-675`. -/
structure ComposePayload where
  url : String
  filename : String
  sizeText : String
deriving DecidableEq

/-- The result dictionary of a compose call: `success` plus the keys that
are present on the success (`url`, `filename`, `size`) and failure
(`error`) paths respectively. -/
structure ComposeResult where
  success : Bool
  url : Option String
  filename : Option String
  size : Option String
  error : Option String
deriving DecidableEq

/-- `"{width}x{height}"`. -/
def sizeText (w h : Nat) : String :=
  toString w ++ "x" ++ toString h

/-- The body of `ImageCompositor.compose` inside its `try`
(`image_compositor.py:429-675`): resolve the target size, obtain the base
image (preloaded, blank white, HTTP fetch, or local file), normalise to
the target size, resolve safe-zone margins, lay the text out, and persist
via the storage service.  Every raised exception travels to the `except`
as `Except.error`. -/
def composeBody (env : ComposeEnv) (a : ComposeArgs) (preloaded : Option Image) :
    Except String ComposePayload := do
  let targetSize := resolveTargetSize a.outputSize
  let img0 ← (match preloaded with
    | some i => Except.ok i
    | none =>
      if isBlankSource a.imageSource then Except.ok (imageNew targetSize)
      else if a.imageSource.startsWith "http" then env.fetchImage a.imageSource
      else env.openImage a.imageSource)
  let img := if (img0.width, img0.height) = targetSize then img0
    else resizeAndCrop img0 targetSize
  let margins ← (match getSafeZone a.outputSize a.safeZone with
    | some m => Except.ok m
    | none => Except.error "KeyError")
  let maxTextWidth := (img.width : Int) - margins.left - margins.right
  let a2 := if a.ctaEmoji && !a.ctaText.isEmpty then
      { a with ctaText := a.ctaText ++ ctaPointerSuffix }
    else a
  let _layout := composeLayout env a2 (img.height : Int) margins maxTextWidth
  let saved ← env.storageSave "composed"
  Except.ok ⟨saved.2, saved.1, sizeText img.width img.height⟩

/-- `ImageCompositor.compose` (`image_compositor.py:403-681`): the body
wrapped in `try/except`, every failure becoming
`{"success": False, "error": "Composition failed: ..."}`. -/
def compose (env : ComposeEnv) (a : ComposeArgs) (preloaded : Option Image) :
    ComposeResult :=
  match composeBody env a preloaded with
  | Except.ok p => ⟨true, some p.url, some p.filename, some p.sizeText, none⟩
  | Except.error e => ⟨false, none, none, none, some ("Composition failed: " ++ e)⟩

/-- One batch variation dictionary (`var.get("hook_text", "")` etc.,
`image_compositor.py:383-388`). -/
structure Variation where
  hookText : Str
  bodyText : Str
  ctaText : Str
deriving DecidableEq

/-- The compose arguments `batch_compose` passes for one variation
(`image_compositor.py:384-395`): the unlisted keyword arguments keep their
`compose` defaults (`safe_zone="auto"`, `cta_style="text"`,
`bold_hook=True`, `cta_emoji=False`). -/
def batchArgs (imageSource outputSize : String) (v : Variation) : ComposeArgs :=
  { imageSource := imageSource, hookText := v.hookText, bodyText := v.bodyText,
    ctaText := v.ctaText, outputSize := outputSize, safeZone := "auto",
    ctaStyle := "text", boldHook := true, ctaEmoji := false }

/-- Step 1 of `batch_compose` (`image_compositor.py:370-380`): decode the
source image once (blank white canvas at the target size, HTTP fetch, or
local file). -/
def batchLoadBase (env : ComposeEnv) (imageSource outputSize : String) :
    Except String Image :=
  if isBlankSource imageSource then Except.ok (imageNew (resolveTargetSize outputSize))
  else if imageSource.startsWith "http" then env.fetchImage imageSource
  else env.openImage imageSource

/-- The variation loop of `batch_compose` (`image_compositor.py:383-397`):
compose each variation against a copy of the base image, and append
`res["url"]` only when `res.get("success")` is truthy.  A missing `"url"`
key on a successful result would raise `KeyError` (caught by the outer
`try`); that branch is provably unreachable. -/
def batchLoop (env : ComposeEnv) (src outputSize : String) (baseImg : Image) :
    List Variation → List String → Except String (List String)
  | [], acc => Except.ok acc
  | v :: rest, acc =>
    let res := compose env (batchArgs src outputSize v) (some baseImg)
    if res.success then
      match res.url with
      | some u => batchLoop env src outputSize baseImg rest (acc ++ [u])
      | none => Except.error "KeyError"
    else batchLoop env src outputSize baseImg rest acc

/-- `ImageCompositor.batch_compose` (`image_compositor.py:357-401`): load
the base image once, run the variation loop, and return `[]` if anything
in the `try` raises.  `base_img.copy()` is the identity on the immutable
image model. -/
def batchCompose (env : ComposeEnv) (imageSource : String)
    (variations : List Variation) (outputSize : String) : List String :=
  match (do
    let base ← batchLoadBase env imageSource outputSize
    batchLoop env imageSource outputSize base variations []) with
  | Except.ok results => results
  | Except.error _ => []

/-- `ImageCompositor.compose_split` (`image_compositor.py:813-980`),
modelled at the granularity of its fallible operations: resolve the
target size, obtain the left-half source image (HTTP, file, or a solid
placeholder when no source is given), resolve margins, and persist; the
`except` wraps any failure as `"Split composition failed: ..."`. -/
def composeSplitM (env : ComposeEnv) (imageSource : String)
    (outputSize safeZone : String) : ComposeResult :=
  match (do
    let targetSize := resolveTargetSize outputSize
    let _src ← (if !imageSource.isEmpty && imageSource.startsWith "http" then
        env.fetchImage imageSource
      else if !imageSource.isEmpty then env.openImage imageSource
      else Except.ok (imageNew (targetSize.1 / 2, targetSize.2)))
    let _margins ← (match getSafeZone outputSize safeZone with
      | some m => Except.ok m
      | none => Except.error "KeyError")
    let saved ← env.storageSave "composed"
    Except.ok (⟨saved.2, saved.1, sizeText targetSize.1 targetSize.2⟩ : ComposePayload)) with
  | Except.ok p => ⟨true, some p.url, some p.filename, some p.sizeText, none⟩
  | Except.error e => ⟨false, none, none, none, some ("Split composition failed: " ++ e)⟩

/-- `ImageCompositor.compose_with_stickers` (`image_compositor.py:982-1127`),
modelled at the granularity of its fallible operations: the canvas is a
solid background, individual sticker failures are swallowed
(`except: pass`), so only the storage save can fail the call. -/
def composeWithStickersM (env : ComposeEnv) (outputSize safeZone : String) :
    ComposeResult :=
  match (do
    let targetSize := resolveTargetSize outputSize
    let _margins ← (match getSafeZone outputSize safeZone with
      | some m => Except.ok m
      | none => Except.error "KeyError")
    let saved ← env.storageSave "composed"
    Except.ok (⟨saved.2, saved.1, sizeText targetSize.1 targetSize.2⟩ : ComposePayload)) with
  | Except.ok p => ⟨true, some p.url, some p.filename, some p.sizeText, none⟩
  | Except.error e => ⟨false, none, none, none, some ("Stickers composition failed: " ++ e)⟩

/-- `ImageCompositor.compose_format` (`image_compositor.py:1129-1219`):
dispatch on `format_type`.  `text_only` composes over a white source with
black text; `meme` composes over the supplied image URL; `stickers` and
`split` delegate to their strategies; anything else returns the hard
input-error dictionary of lines 1215-1219. -/
def composeFormat (env : ComposeEnv) (formatType : String) (hook body cta : Str)
    (imageUrl outputSize ctaStyle safeZone : String) (boldHook : Bool) :
    ComposeResult :=
  if formatType = "text_only" then
    compose env
      { imageSource := "white", hookText := hook, bodyText := body, ctaText := cta,
        outputSize := outputSize, safeZone := safeZone, ctaStyle := ctaStyle,
        boldHook := boldHook, ctaEmoji := false } none
  else if formatType = "meme" then
    compose env
      { imageSource := imageUrl, hookText := hook, bodyText := body, ctaText := cta,
        outputSize := outputSize, safeZone := safeZone, ctaStyle := ctaStyle,
        boldHook := boldHook, ctaEmoji := false } none
  else if formatType = "stickers" then
    composeWithStickersM env outputSize safeZone
  else if formatType = "split" then
    composeSplitM env imageUrl outputSize safeZone
  else
    ⟨false, none, none, none,
      some ("Unknown format_type: " ++ formatType ++ ". Use: text_only, meme, stickers, split")⟩

/-- Scanner invariant: with a whitespace-free pending word, every emitted
word is non-empty and whitespace-free. -/
theorem splitWordsAux_good : ∀ (s acc : Str), (∀ c ∈ acc, c.isWhitespace = false) →
    ∀ w ∈ splitWordsAux s acc, goodWord w := by
  intro s
  induction s with
  | nil =>
    intro acc hacc w hw
    by_cases h : acc.isEmpty
    · simp [splitWordsAux, h] at hw
    · rw [splitWordsAux, if_neg h] at hw
      have hwacc : w = acc := by simpa using hw
      subst hwacc
      exact ⟨by simpa [List.isEmpty_iff] using h, hacc⟩
  | cons c cs ih =>
    intro acc hacc w hw
    rw [splitWordsAux] at hw
    by_cases hc : c.isWhitespace
    · rw [if_pos hc] at hw
      by_cases ha : acc.isEmpty
      · rw [if_pos ha] at hw
        exact ih [] (by simp) w hw
      · rw [if_neg ha] at hw
        rcases List.mem_cons.mp hw with rfl | hw
        · exact ⟨by simpa [List.isEmpty_iff] using ha, hacc⟩
        · exact ih [] (by simp) w hw
    · rw [if_neg hc] at hw
      refine ih (acc ++ [c]) ?_ w hw
      intro x hx
      rcases List.mem_append.mp hx with hx | hx
      · exact hacc x hx
      · have hxc : x = c := by simpa using hx
        subst hxc
        simpa using hc

/-- Every word produced by `splitWords` is non-empty and whitespace-free. -/
theorem splitWords_good (s : Str) : ∀ w ∈ splitWords s, goodWord w :=
  splitWordsAux_good s [] (by simp)

/-- Scanning a whitespace-free prefix just extends the pending word. -/
theorem splitWordsAux_word : ∀ (w s acc : Str), (∀ c ∈ w, c.isWhitespace = false) →
    splitWordsAux (w ++ s) acc = splitWordsAux s (acc ++ w) := by
  intro w
  induction w with
  | nil => intro s acc _; simp
  | cons c w2 ih =>
    intro s acc hw
    have hc : c.isWhitespace = false := hw c (by simp)
    rw [List.cons_append, splitWordsAux, if_neg (by simp [hc]),
      ih s (acc ++ [c]) (fun x hx => hw x (by simp [hx]))]
    simp

/-- Splitting a whitespace-free word followed by a whitespace boundary
peels off exactly that word. -/
theorem splitWords_word_append (w s : Str) (hw : goodWord w)
    (hs : s = [] ∨ ∃ c cs, s = c :: cs ∧ c.isWhitespace = true) :
    splitWords (w ++ s) = w :: splitWords s := by
  obtain ⟨hne, hchars⟩ := hw
  have hwe : w.isEmpty = false := by
    cases w
    · exact absurd rfl hne
    · rfl
  unfold splitWords
  rw [splitWordsAux_word w s [] hchars, List.nil_append]
  rcases hs with rfl | ⟨c, cs, rfl, hc⟩
  · simp [splitWordsAux, hwe]
  · rw [splitWordsAux, if_pos hc, if_neg (by simp [hwe]),
      splitWordsAux, if_pos hc]
    simp

/-- `str.split()` is a left inverse of `' '.join` on lists of
whitespace-free non-empty words. -/
theorem splitWords_joinWords : ∀ ws : List Str, (∀ w ∈ ws, goodWord w) →
    splitWords (joinWords ws) = ws := by
  intro ws
  induction ws with
  | nil => intro _; simp [joinWords, splitWords, splitWordsAux]
  | cons w rest ih =>
    intro hgood
    cases rest with
    | nil =>
      have h0 : splitWords (w ++ ([] : Str)) = w :: splitWords [] :=
        splitWords_word_append w [] (hgood w (by simp)) (Or.inl rfl)
      simpa [joinWords, splitWords, splitWordsAux] using h0
    | cons w2 rest2 =>
      have hj : joinWords (w :: w2 :: rest2) = w ++ ' ' :: joinWords (w2 :: rest2) := rfl
      rw [hj, splitWords_word_append w (' ' :: joinWords (w2 :: rest2))
        (hgood w (by simp)) (Or.inr ⟨' ', joinWords (w2 :: rest2), rfl, by decide⟩)]
      have hsp : splitWords (' ' :: joinWords (w2 :: rest2)) =
          splitWords (joinWords (w2 :: rest2)) := by
        unfold splitWords
        rw [splitWordsAux]
        simp
      rw [hsp, ih (fun x hx => hgood x (List.mem_cons_of_mem w hx))]

/-- The wrap loop neither drops nor duplicates words: flattening its
output chunks gives the pending line followed by the remaining words. -/
theorem wrapLoop_flatten (m : Str → Int) (mw : Int) :
    ∀ (ws current : List Str),
      (wrapLoop m mw ws current).flatten = current ++ ws := by
  intro ws
  induction ws with
  | nil =>
    intro current
    by_cases h : current = []
    · simp [wrapLoop, h]
    · simp [wrapLoop, h]
  | cons w rest ih =>
    intro current
    rw [wrapLoop]
    by_cases h1 : m (joinWords (current ++ [w])) ≤ mw
    · simp only [h1, if_true]
      rw [ih (current ++ [w])]
      simp
    · simp only [h1, if_false]
      by_cases h2 : current = []
      · simp only [h2, if_true]
        rw [ih [w]]
        simp
      · simp only [h2, if_false]
        rw [List.flatten_cons, ih [w]]
        simp

/-- Every chunk the wrap loop emits consists of words drawn from its
inputs. -/
theorem wrapLoop_chunks_good (m : Str → Int) (mw : Int) :
    ∀ (ws current : List Str), (∀ w ∈ ws, goodWord w) →
      (∀ w ∈ current, goodWord w) →
      ∀ chunk ∈ wrapLoop m mw ws current, ∀ w ∈ chunk, goodWord w := by
  intro ws
  induction ws with
  | nil =>
    intro current _ hcur chunk hchunk
    by_cases h : current = [] <;> simp [wrapLoop, h] at hchunk
    subst hchunk
    exact hcur
  | cons w rest ih =>
    intro current hws hcur chunk hchunk
    have hw : goodWord w := hws w (by simp)
    have hrest : ∀ x ∈ rest, goodWord x := fun x hx => hws x (by simp [hx])
    rw [wrapLoop] at hchunk
    by_cases h1 : m (joinWords (current ++ [w])) ≤ mw
    · simp only [h1, if_true] at hchunk
      refine ih (current ++ [w]) hrest ?_ chunk hchunk
      intro x hx
      rcases List.mem_append.mp hx with hx | hx
      · exact hcur x hx
      · have hxw : x = w := by simpa using hx
        subst hxw
        exact hw
    · simp only [h1, if_false] at hchunk
      by_cases h2 : current = []
      · simp only [h2, if_true] at hchunk
        refine ih [w] hrest ?_ chunk hchunk
        intro x hx
        have hxw : x = w := by simpa using hx
        subst hxw
        exact hw
      · simp only [h2, if_false, List.mem_cons] at hchunk
        rcases hchunk with rfl | hchunk
        · exact hcur
        · refine ih [w] hrest ?_ chunk hchunk
          intro x hx
          have hxw : x = w := by simpa using hx
          subst hxw
          exact hw

/-- Width invariant of the wrap loop: any emitted chunk of two or more
words was accepted against `maxWidth` when its last word joined it. -/
theorem wrapLoop_width (m : Str → Int) (mw : Int) :
    ∀ (ws current : List Str),
      (2 ≤ current.length → m (joinWords current) ≤ mw) →
      ∀ chunk ∈ wrapLoop m mw ws current,
        2 ≤ chunk.length → m (joinWords chunk) ≤ mw := by
  intro ws
  induction ws with
  | nil =>
    intro current hinv chunk hchunk
    by_cases h : current = [] <;> simp [wrapLoop, h] at hchunk
    subst hchunk
    exact hinv
  | cons w rest ih =>
    intro current hinv chunk hchunk
    rw [wrapLoop] at hchunk
    by_cases h1 : m (joinWords (current ++ [w])) ≤ mw
    · simp only [h1, if_true] at hchunk
      exact ih (current ++ [w]) (fun _ => h1) chunk hchunk
    · simp only [h1, if_false] at hchunk
      by_cases h2 : current = []
      · simp only [h2, if_true] at hchunk
        exact ih [w] (by intro h; simp at h) chunk hchunk
      · simp only [h2, if_false, List.mem_cons] at hchunk
        rcases hchunk with rfl | hchunk
        · exact hinv
        · exact ih [w] (by intro h; simp at h) chunk hchunk

/-- C3 — Wrap completeness: for every input string and every max width,
concatenating the words of all wrapped lines produced by `_wrap_text`, in
order, reproduces the original whitespace-delimited word sequence exactly
(no word duplicated or dropped), and an empty input produces an empty line
sequence. -/
theorem wrap_completeness (d : EmojiDetector) (font : FontHandle) (maxWidth : Int)
    (text : Str) :
    ((wrapText d text font maxWidth).map splitWords).flatten = splitWords text ∧
    wrapText d [] font maxWidth = [] := by
  constructor
  · unfold wrapText
    rw [List.map_map]
    have hchunks : ∀ chunk ∈ wrapLoop (fun s => measureTextMixed d s font) maxWidth
        (splitWords text) [], splitWords (joinWords chunk) = chunk := by
      intro chunk hchunk
      exact splitWords_joinWords chunk
        (wrapLoop_chunks_good _ _ (splitWords text) [] (splitWords_good text)
          (by simp) chunk hchunk)
    have hmap : List.map (splitWords ∘ joinWords)
        (wrapLoop (fun s => measureTextMixed d s font) maxWidth (splitWords text) []) =
        List.map id
        (wrapLoop (fun s => measureTextMixed d s font) maxWidth (splitWords text) []) :=
      List.map_congr_left (fun a ha => by simpa using hchunks a ha)
    rw [hmap, List.map_id,
      wrapLoop_flatten (fun s => measureTextMixed d s font) maxWidth (splitWords text) []]
    simp
  · simp [wrapText, splitWords, splitWordsAux, wrapLoop]

/-- C4 — Wrap width bound: any line produced by `_wrap_text` that contains
two or more words measures (per `_measure_text_mixed`) at most the max
width; only single-word lines may exceed it. -/
theorem wrap_width_bound (d : EmojiDetector) (font : FontHandle) (maxWidth : Int)
    (text : Str) (line : Str) (hline : line ∈ wrapText d text font maxWidth)
    (h2 : 2 ≤ (splitWords line).length) :
    measureTextMixed d line font ≤ maxWidth := by
  obtain ⟨chunk, hchunk, rfl⟩ := List.mem_map.mp hline
  have hgood : ∀ w ∈ chunk, goodWord w :=
    wrapLoop_chunks_good _ _ (splitWords text) [] (splitWords_good text)
      (by simp) chunk hchunk
  rw [splitWords_joinWords chunk hgood] at h2
  exact wrapLoop_width _ _ (splitWords text) [] (by intro h; simp at h) chunk hchunk h2

/-- A detector for inputs containing no emoji (what `emoji.emoji_list`
returns on plain text). -/
def noEmojiDetector : EmojiDetector := ⟨fun _ => []⟩

/-- A sample monospace-like font: every character 10px wide. -/
def monoFont : FontHandle := ⟨10, fun s => ⟨0, 0, 10 * s.length, 10⟩⟩

/-- The string `"ab cd ef"`. -/
def wrapSampleText : Str := ['a', 'b', ' ', 'c', 'd', ' ', 'e', 'f']

/-- The string `"ab cd"`. -/
def wrapSampleLine : Str := ['a', 'b', ' ', 'c', 'd']

/-- Witness for C4: wrapping `"ab cd ef"` at width 60 in a 10px/char font
emits the two-word line `"ab cd"`, whose measured width is within 60. -/
theorem wrap_width_bound_witness :
    measureTextMixed noEmojiDetector wrapSampleLine monoFont ≤ 60 :=
  wrap_width_bound noEmojiDetector monoFont 60 wrapSampleText wrapSampleLine
    (by decide) (by decide)

/-- Splitting a take into two adjacent takes (helper for slice algebra). -/
theorem take_add_append {α : Type} : ∀ (m n : Nat) (l : List α),
    l.take (m + n) = l.take m ++ (l.drop m).take n := by
  intro m
  induction m with
  | zero => intro n l; simp
  | succ k ih =>
    intro n l
    cases l with
    | nil => simp
    | cons x xs =>
      simp only [Nat.succ_add, List.take_succ_cons, List.drop_succ_cons, List.cons_append]
      rw [ih n xs]

/-- Adjacent slices concatenate. -/
theorem sliceStr_append (s : Str) (a b c : Nat) (hab : a ≤ b) (hbc : b ≤ c) :
    sliceStr s a b ++ sliceStr s b c = sliceStr s a c := by
  unfold sliceStr
  have h1 : s.drop b = (s.drop a).drop (b - a) := by
    rw [List.drop_drop]
    congr 1
    omega
  rw [h1]
  have h2 : c - a = (b - a) + (c - b) := by omega
  rw [h2, take_add_append]

/-- The full-range slice is the whole string. -/
theorem sliceStr_full (s : Str) : sliceStr s 0 s.length = s := by
  simp [sliceStr]

/-- A slice over a non-empty in-bounds range is non-empty. -/
theorem sliceStr_ne_nil (s : Str) (a b : Nat) (h1 : a < b) (h2 : b ≤ s.length) :
    sliceStr s a b ≠ [] := by
  unfold sliceStr
  intro h
  have hlen := congrArg List.length h
  simp only [List.length_take, List.length_drop, List.length_nil] at hlen
  omega

/-- Unpacking one step of emoji-entry well-formedness. -/
theorem entriesWFb_cons {s : Str} {lb : Nat} {e : EmojiEntry} {rest : List EmojiEntry}
    (h : entriesWFb s lb (e :: rest) = true) :
    lb ≤ e.matchStart ∧ e.matchStart < e.matchEnd ∧ e.matchEnd ≤ s.length ∧
    e.emoji = sliceStr s e.matchStart e.matchEnd ∧ entriesWFb s e.matchEnd rest = true := by
  simp only [entriesWFb, Bool.and_eq_true, decide_eq_true_eq] at h
  tauto

/-- The segment loop reassembles exactly the slice of text it walks. -/
theorem segLoop_flatten (text : Str) : ∀ (entries : List EmojiEntry) (last : Nat),
    entriesWFb text last entries = true → last ≤ text.length →
    ((segLoop text last entries).map Prod.fst).flatten = sliceStr text last text.length := by
  intro entries
  induction entries with
  | nil =>
    intro last _ hle
    by_cases h : last < text.length
    · simp [segLoop, h]
    · have hl : last = text.length := by omega
      subst hl
      simp [segLoop, sliceStr]
  | cons e rest ih =>
    intro last hwf hle
    obtain ⟨h1, h2, h3, h4, h5⟩ := entriesWFb_cons hwf
    rw [segLoop]
    by_cases hgt : e.matchStart > last
    · simp only [if_pos hgt, List.map_append, List.map_cons, List.flatten_append,
        List.flatten_cons]
      rw [ih e.matchEnd h5 h3, h4]
      simp only [List.flatten_cons, List.flatten_nil, List.append_nil, List.map_nil]
      rw [← List.append_assoc,
        sliceStr_append text last e.matchStart e.matchEnd (Nat.le_of_lt hgt) (Nat.le_of_lt h2),
        sliceStr_append text last e.matchEnd text.length
          (Nat.le_trans (Nat.le_of_lt hgt) (Nat.le_of_lt h2)) h3]
    · have hstart : e.matchStart = last := by omega
      simp only [if_neg hgt, List.nil_append, List.map_cons, List.flatten_cons]
      rw [ih e.matchEnd h5 h3, h4, hstart,
        sliceStr_append text last e.matchEnd text.length
          (by omega) h3]

/-- The symbol segments the loop emits are exactly the detected emoji
runs, in order. -/
theorem segLoop_symbols (text : Str) : ∀ (entries : List EmojiEntry) (last : Nat),
    ((segLoop text last entries).filter (fun p => p.2)).map Prod.fst =
      entries.map EmojiEntry.emoji := by
  intro entries
  induction entries with
  | nil =>
    intro last
    by_cases h : last < text.length <;> simp [segLoop, h]
  | cons e rest ih =>
    intro last
    rw [segLoop]
    by_cases hgt : e.matchStart > last <;>
      simp [hgt, List.filter_append, ih e.matchEnd]

/-- No plain segment the loop emits is empty. -/
theorem segLoop_plain_ne (text : Str) : ∀ (entries : List EmojiEntry) (last : Nat),
    entriesWFb text last entries = true → last ≤ text.length →
    ∀ p ∈ segLoop text last entries, p.2 = false → p.1 ≠ [] := by
  intro entries
  induction entries with
  | nil =>
    intro last _ hle p hp hfalse
    by_cases h : last < text.length
    · simp only [segLoop, if_pos h] at hp
      have hpe : p = (sliceStr text last text.length, false) := by simpa using hp
      subst hpe
      exact sliceStr_ne_nil text last text.length h (Nat.le_refl _)
    · simp [segLoop, h] at hp
  | cons e rest ih =>
    intro last hwf hle p hp hfalse
    obtain ⟨h1, h2, h3, h4, h5⟩ := entriesWFb_cons hwf
    rw [segLoop] at hp
    by_cases hgt : e.matchStart > last
    · rw [if_pos hgt] at hp
      rcases List.mem_append.mp hp with hp | hp
      · have hpe : p = (sliceStr text last e.matchStart, false) := by simpa using hp
        subst hpe
        exact sliceStr_ne_nil text last e.matchStart hgt (by omega)
      · rcases List.mem_cons.mp hp with rfl | hp
        · simp at hfalse
        · exact ih e.matchEnd h5 h3 p hp hfalse
    · rw [if_neg hgt, List.nil_append] at hp
      rcases List.mem_cons.mp hp with rfl | hp
      · simp at hfalse
      · exact ih e.matchEnd h5 h3 p hp hfalse

/-- C10 — Segmenter partition: concatenating the segments of
`_iter_text_segments`, in order, reproduces the input exactly; the symbol
segments are exactly the detected emoji runs in order; no plain segment is
empty; and the empty string yields no segments.  The hypothesis is the
well-formedness `emoji.emoji_list` guarantees for its matches. -/
theorem segmenter_partition (d : EmojiDetector) (text : Str)
    (hwf : entriesWFb text 0 (d.emojiList text) = true) :
    ((iterTextSegments d text).map Prod.fst).flatten = text ∧
    ((iterTextSegments d text).filter (fun p => p.2)).map Prod.fst =
      (d.emojiList text).map EmojiEntry.emoji ∧
    (∀ p ∈ iterTextSegments d text, p.2 = false → p.1 ≠ []) ∧
    (text = [] → iterTextSegments d text = []) := by
  unfold iterTextSegments
  by_cases he : (d.emojiList text).isEmpty
  · have hel : d.emojiList text = [] := by simpa [List.isEmpty_iff] using he
    simp only [he, if_true]
    by_cases ht : text.isEmpty
    · have htl : text = [] := by simpa [List.isEmpty_iff] using ht
      subst htl
      simp [hel]
    · have htl : text ≠ [] := by simpa [List.isEmpty_iff] using ht
      refine ⟨by simp [ht], by simp [ht, hel], ?_, by intro h; exact absurd h htl⟩
      intro p hp _
      have hpe : p = (text, false) := by simpa [ht] using hp
      subst hpe
      exact htl
  · have hne : d.emojiList text ≠ [] := by simpa [List.isEmpty_iff] using he
    rw [if_neg he]
    refine ⟨?_, segLoop_symbols text (d.emojiList text) 0,
      segLoop_plain_ne text (d.emojiList text) 0 hwf (Nat.zero_le _), ?_⟩
    · rw [segLoop_flatten text (d.emojiList text) 0 hwf (Nat.zero_le _)]
      exact sliceStr_full text
    · intro htl
      subst htl
      cases hev : d.emojiList [] with
      | nil => exact absurd hev hne
      | cons e rest =>
        rw [hev] at hwf
        obtain ⟨_, h2, h3, _, _⟩ := entriesWFb_cons hwf
        simp at h3
        omega

/-- The string `"hi⭐"`. -/
def sampleEmojiText : Str := ['h', 'i', '⭐']

/-- A detector that recognises the star emoji in `sampleEmojiText`
(offsets as `emoji.emoji_list` would report them). -/
def sampleDetector : EmojiDetector :=
  ⟨fun s => if s = sampleEmojiText then [⟨2, 3, ['⭐']⟩] else []⟩

/-- Witness for C10: on `"hi⭐"` with a detector reporting the star at
offsets [2, 3), the segments reassemble the input exactly. -/
theorem segmenter_partition_witness :
    ((iterTextSegments sampleDetector sampleEmojiText).map Prod.fst).flatten =
      sampleEmojiText :=
  (segmenter_partition sampleDetector sampleEmojiText (by decide)).1

/-- A successful association-list lookup returns one of the stored
values. -/
theorem lookup_mem {α β : Type} [BEq α] [LawfulBEq α] :
    ∀ (l : List (α × β)) (k : α) (v : β), l.lookup k = some v → v ∈ l.map Prod.snd := by
  intro l
  induction l with
  | nil => intro k v h; simp [List.lookup] at h
  | cons e rest ih =>
    intro k v h
    obtain ⟨a, b⟩ := e
    rw [List.lookup] at h
    cases hak : k == a with
    | true =>
      rw [hak] at h
      simp only [Option.some.injEq] at h
      subst h
      simp
    | false =>
      rw [hak] at h
      exact List.mem_cons_of_mem _ (ih k v h)

/-- C8 — Font resolution totality: `_find_font` never fails.  Unknown
logical names fall back to the default (`"impact"`) family's candidate
list; the first candidate path that exists and loads wins; and when every
candidate fails the built-in default bitmap font is returned. -/
theorem find_font_resolution :
    (∀ (env : FontEnv) (fontName : String) (size : Int),
      FONT_PATHS.lookup fontName = none →
      findFont env fontName size = findFont env "impact" size) ∧
    (∀ (env : FontEnv) (size : Int) (ps : List String),
      (∀ q ∈ ps, env.pathExists q = false ∨ env.loadTruetype q size = none) →
      findFontFrom env size ps = env.loadDefault) ∧
    (∀ (env : FontEnv) (size : Int) (ps1 : List String) (p : String)
      (ps2 : List String) (f : FontHandle),
      (∀ q ∈ ps1, env.pathExists q = false ∨ env.loadTruetype q size = none) →
      env.pathExists p = true → env.loadTruetype p size = some f →
      findFontFrom env size (ps1 ++ p :: ps2) = f) := by
  refine ⟨?_, ?_, ?_⟩
  · intro env fontName size h
    have himp : (FONT_PATHS.lookup "impact").isSome = true := by decide
    obtain ⟨ips, hips⟩ := Option.isSome_iff_exists.mp himp
    simp [findFont, h, hips]
  · intro env size ps
    induction ps with
    | nil => intro _; rfl
    | cons q qs ih =>
      intro h
      rw [findFontFrom]
      rcases h q (by simp) with hq | hq
      · rw [if_neg (by simp [hq])]
        exact ih (fun x hx => h x (List.mem_cons_of_mem q hx))
      · by_cases hex : env.pathExists q = true
        · rw [if_pos hex, hq]
          exact ih (fun x hx => h x (List.mem_cons_of_mem q hx))
        · rw [if_neg hex]
          exact ih (fun x hx => h x (List.mem_cons_of_mem q hx))
  · intro env size ps1
    induction ps1 with
    | nil =>
      intro p ps2 f _ hex hload
      rw [List.nil_append, findFontFrom, if_pos hex, hload]
    | cons q qs ih =>
      intro p ps2 f h hex hload
      rw [List.cons_append, findFontFrom]
      rcases h q (by simp) with hq | hq
      · rw [if_neg (by simp [hq])]
        exact ih p ps2 f (fun x hx => h x (List.mem_cons_of_mem q hx)) hex hload
      · by_cases hqex : env.pathExists q = true
        · rw [if_pos hqex, hq]
          exact ih p ps2 f (fun x hx => h x (List.mem_cons_of_mem q hx)) hex hload
        · rw [if_neg hqex]
          exact ih p ps2 f (fun x hx => h x (List.mem_cons_of_mem q hx)) hex hload

/-- A loader environment on a machine with no font files installed. -/
def fontEnvNoFiles : FontEnv :=
  ⟨fun _ => false, fun _ _ => none, ⟨11, fun _ => ⟨0, 0, 0, 0⟩⟩⟩

/-- Witness for C8: with no font file available, the candidate loop lands
on the built-in default font. -/
theorem find_font_resolution_witness :
    findFontFrom fontEnvNoFiles 20 ["/tmp/x.ttf"] = fontEnvNoFiles.loadDefault :=
  find_font_resolution.2.1 fontEnvNoFiles 20 ["/tmp/x.ttf"]
    (fun _ _ => Or.inl rfl)

/-- C9 — Safe-zone totality: for every (preset, selector) pair, including
unknown presets and unknown selectors, `_get_safe_zone` resolves to a
profile with four non-negative margins; `"auto"` goes through the
preset-to-profile table with unmapped presets defaulting to `"none"`, and
any other selector uses the named profile when it exists, else `"none"`. -/
theorem safe_zone_resolution :
    (∀ o s : String, ∃ z : SafeZone, getSafeZone o s = some z ∧
      0 ≤ z.top ∧ 0 ≤ z.bottom ∧ 0 ≤ z.left ∧ 0 ≤ z.right) ∧
    (∀ o : String, getSafeZone o "auto" =
      SAFE_ZONES.lookup ((SIZE_TO_SAFE_ZONE.lookup o).getD "none")) ∧
    (∀ o s : String, s ≠ "auto" → SAFE_ZONES.lookup s = none →
      getSafeZone o s = SAFE_ZONES.lookup "none") ∧
    (∀ o s : String, s ≠ "auto" → (SAFE_ZONES.lookup s).isSome = true →
      getSafeZone o s = SAFE_ZONES.lookup s) := by
  have hZnn : ∀ z ∈ SAFE_ZONES.map Prod.snd,
      0 ≤ z.top ∧ 0 ≤ z.bottom ∧ 0 ≤ z.left ∧ 0 ≤ z.right := by decide
  have hTbl : ∀ v ∈ SIZE_TO_SAFE_ZONE.map Prod.snd,
      (SAFE_ZONES.lookup v).isSome = true := by decide
  have hname : ∀ name : String, (SAFE_ZONES.lookup name).isSome = true →
      ∃ z : SafeZone, SAFE_ZONES.lookup name = some z ∧
        0 ≤ z.top ∧ 0 ≤ z.bottom ∧ 0 ≤ z.left ∧ 0 ≤ z.right := by
    intro name hsome
    obtain ⟨z, hz⟩ := Option.isSome_iff_exists.mp hsome
    exact ⟨z, hz, hZnn z (lookup_mem SAFE_ZONES name z hz)⟩
  refine ⟨?_, ?_, ?_, ?_⟩
  · intro o s
    simp only [getSafeZone]
    by_cases hs : s = "auto"
    · rw [if_pos hs]
      cases hlk : SIZE_TO_SAFE_ZONE.lookup o with
      | none => simpa using hname "none" (by decide)
      | some v => simpa using hname v (hTbl v (lookup_mem _ _ _ hlk))
    · rw [if_neg hs]
      by_cases hsm : (SAFE_ZONES.lookup s).isSome = true
      · rw [if_pos hsm]
        exact hname s hsm
      · rw [if_neg hsm]
        exact hname "none" (by decide)
  · intro o
    simp [getSafeZone]
  · intro o s hs hnone
    simp only [getSafeZone]
    rw [if_neg hs, if_neg (by simp [hnone])]
  · intro o s hs hsome
    simp only [getSafeZone]
    rw [if_neg hs, if_pos hsome]

/-- Witness for C9: an unknown selector on a known preset falls back to
the `"none"` profile. -/
theorem safe_zone_resolution_witness :
    getSafeZone "instagram_square" "bogus" = SAFE_ZONES.lookup "none" :=
  safe_zone_resolution.2.2.1 "instagram_square" "bogus" (by decide) (by decide)

/-- Every gap the even-distribution drawing loop leaves between
consecutive blocks is the fixed `evenGapSize`. -/
theorem evenPositions_gaps : ∀ (bs : List EvenBlock) (y : Int),
    ∀ g ∈ gapsOf (evenPositions y bs), g = evenGapSize := by
  intro bs
  induction bs with
  | nil => intro y g hg; simp [evenPositions, gapsOf] at hg
  | cons a t ih =>
    intro y g hg
    cases t with
    | nil => simp [evenPositions, gapsOf] at hg
    | cons b t2 =>
      rw [evenPositions, evenPositions, gapsOf] at hg
      rcases List.mem_cons.mp hg with rfl | hg
      · ring
      · rw [← evenPositions] at hg
        exact ih (y + a.drawnHeight + evenGapSize) g hg

/-- The bottom of the last block laid out by `evenPositions`. -/
theorem evenPositions_last : ∀ (t : List EvenBlock) (h : EvenBlock) (y : Int),
    ∃ q : Int × Int, (evenPositions y (h :: t)).getLast? = some q ∧
      q.2 = y + (((h :: t).map EvenBlock.drawnHeight).sum +
        evenGapSize * (t.length : Int)) := by
  intro t
  induction t with
  | nil =>
    intro h y
    refine ⟨(y, y + h.drawnHeight), by simp [evenPositions], by simp⟩
  | cons h2 t2 ih =>
    intro h y
    obtain ⟨q, hq, hq2⟩ := ih h2 (y + h.drawnHeight + evenGapSize)
    refine ⟨q, ?_, ?_⟩
    · rw [evenPositions, evenPositions, List.getLast?_cons_cons, ← evenPositions, hq]
    · rw [hq2]
      simp only [List.sum_cons, List.length_cons, List.map_cons]
      push_cast
      ring

/-- C2 counterexample: with three 10px blocks on the 1080px
`instagram_square` canvas (whose auto safe-zone is the 40px `none`
profile), the even-distribution branch leaves fixed 70px gaps — not the
`(content_height - total_block_height) / max(1, n-1) = 485px` gaps the
claim prescribes. -/
theorem even_distribution_cex :
    getSafeZone "instagram_square" "auto" = some ⟨40, 40, 40, 40⟩ ∧
    gapsOf (evenLayout 1080 [⟨10, 10⟩, ⟨10, 10⟩, ⟨10, 10⟩]) = [70, 70] ∧
    (70 : Int) ≠ Int.fdiv ((1080 - 40 - 40) - (10 + 10 + 10)) (max 1 (3 - 1)) := by
  refine ⟨by decide, by decide, by decide⟩

/-- C2 amended — Even-distribution layout: with `n ≥ 2` present blocks the
gap between consecutive drawn blocks is the fixed 70px `evenGapSize`
regardless of available space; the span from the first block's top to the
last block's bottom is the total *drawn* block height plus `70 * (n - 1)`;
and the stack's bottom clearance exceeds its top clearance by the 1px-max
floor-division remainder plus the total difference between the precomputed
centering heights and the drawn heights — a difference that is zero for
every text block, so whenever each block is drawn at its precomputed
height (in particular when no block is a button CTA) the stack is centered
within the full canvas (not the margin-inset content rectangle) to within
1px.  A button CTA, whose drawn height `getbbox(lines[0]).y1 -
getbbox(lines[0]).y0 + 40` differs from its precomputed
`getbbox(cta_text).y1 + 50`, shifts the stack by exactly that
difference. -/
theorem even_distribution_fixed_gap (ch : Int) (bs : List EvenBlock)
    (hn : 2 ≤ bs.length) :
    (∀ g ∈ gapsOf (evenLayout ch bs), g = evenGapSize) ∧
    (∃ f l : Int × Int, (evenLayout ch bs).head? = some f ∧
      (evenLayout ch bs).getLast? = some l ∧
      l.2 - f.1 = (bs.map EvenBlock.drawnHeight).sum +
        evenGapSize * ((bs.length : Int) - 1) ∧
      (∃ r : Int, (r = 0 ∨ r = 1) ∧
        (ch - l.2) - f.1 = r + ((bs.map EvenBlock.centerHeight).sum -
          (bs.map EvenBlock.drawnHeight).sum)) ∧
      ((∀ b ∈ bs, b.drawnHeight = b.centerHeight) →
        ((ch - l.2) - f.1 = 0 ∨ (ch - l.2) - f.1 = 1))) := by
  cases bs with
  | nil => simp at hn
  | cons a t =>
    cases t with
    | nil => simp at hn
    | cons b t2 =>
      simp only [evenLayout]
      constructor
      · intro g hg
        exact evenPositions_gaps (a :: b :: t2) _ g hg
      · have hmax : max 1 (((a :: b :: t2).length : Int) - 1) =
            ((a :: b :: t2).length : Int) - 1 := by
          simp only [List.length_cons]
          push_cast
          omega
        rw [hmax]
        have habc : ∀ x : Int, Int.fdiv x 2 = x / 2 :=
          fun x => Int.fdiv_eq_ediv x (by omega)
        set C := ((a :: b :: t2).map EvenBlock.centerHeight).sum with hC
        set D := ((a :: b :: t2).map EvenBlock.drawnHeight).sum with hD
        set y0 := Int.fdiv (ch - (C + evenGapSize *
          (((a :: b :: t2).length : Int) - 1))) 2 with hy0
        obtain ⟨q, hq, hq2⟩ := evenPositions_last (b :: t2) a y0
        refine ⟨⟨y0, y0 + a.drawnHeight⟩, q, ?_, hq, ?_, ?_, ?_⟩
        · rw [evenPositions]
          rfl
        · rw [hq2, hD]
          simp only [List.map_cons, List.sum_cons, List.length_cons]
          push_cast
          ring
        · refine ⟨(ch - (C + evenGapSize *
            (((a :: b :: t2).length : Int) - 1))) % 2, Int.emod_two_eq _, ?_⟩
          rw [hq2, hy0, habc, hC, hD]
          simp only [List.map_cons, List.sum_cons, List.length_cons, evenGapSize]
          push_cast
          omega
        · intro hall
          have hmaps : (a :: b :: t2).map EvenBlock.drawnHeight =
              (a :: b :: t2).map EvenBlock.centerHeight :=
            List.map_congr_left hall
          have hsum := congrArg List.sum hmaps
          rw [hq2, hy0, habc, hC]
          simp only [List.map_cons, List.sum_cons, List.length_cons, evenGapSize]
            at hsum ⊢
          push_cast
          omega

/-- Witness for the amended C2: three equal-height 10px blocks on a 1080px
canvas span 170px and — all drawn heights matching their centering heights
— sit dead-centre with 455px clearance above and below. -/
theorem even_distribution_fixed_gap_witness :
    ∃ f l : Int × Int,
      (evenLayout 1080 [⟨10, 10⟩, ⟨10, 10⟩, ⟨10, 10⟩]).head? = some f ∧
      (evenLayout 1080 [⟨10, 10⟩, ⟨10, 10⟩, ⟨10, 10⟩]).getLast? = some l ∧
      l.2 - f.1 = (([⟨10, 10⟩, ⟨10, 10⟩, ⟨10, 10⟩] : List EvenBlock).map
          EvenBlock.drawnHeight).sum +
        evenGapSize *
          ((([⟨10, 10⟩, ⟨10, 10⟩, ⟨10, 10⟩] : List EvenBlock).length : Int) - 1) ∧
      (∃ r : Int, (r = 0 ∨ r = 1) ∧
        (1080 - l.2) - f.1 = r +
          ((([⟨10, 10⟩, ⟨10, 10⟩, ⟨10, 10⟩] : List EvenBlock).map
              EvenBlock.centerHeight).sum -
            (([⟨10, 10⟩, ⟨10, 10⟩, ⟨10, 10⟩] : List EvenBlock).map
              EvenBlock.drawnHeight).sum)) ∧
      ((∀ bk ∈ ([⟨10, 10⟩, ⟨10, 10⟩, ⟨10, 10⟩] : List EvenBlock),
          bk.drawnHeight = bk.centerHeight) →
        ((1080 - l.2) - f.1 = 0 ∨ (1080 - l.2) - f.1 = 1)) :=
  (even_distribution_fixed_gap 1080 [⟨10, 10⟩, ⟨10, 10⟩, ⟨10, 10⟩] (by decide)).2

/-- Characterisation of the shrink loop started at size `29 + 3n`: within
at most `n` decrements it either stops at a size whose content fits, or
falls through the 28px floor with every visited size overflowing. -/
theorem shrinkLoop_spec (f : Int → Int) (limit : Int) : ∀ n : Nat,
    ∃ k : Nat, k ≤ n ∧
      ((shrinkLoop f limit (29 + 3 * (n : Int)) =
          (29 + 3 * ((n - k : Nat) : Int), f (29 + 3 * ((n - k : Nat) : Int))) ∧
        f (29 + 3 * ((n - k : Nat) : Int)) ≤ limit) ∨
       (shrinkLoop f limit (29 + 3 * (n : Int)) = (26, f 29) ∧
        ∀ j : Nat, j ≤ n → limit < f (29 + 3 * (j : Int)))) := by
  intro n
  induction n with
  | zero =>
    refine ⟨0, Nat.le_refl 0, ?_⟩
    simp only [Nat.sub_zero, Nat.cast_zero, Nat.cast_ofNat]
    norm_num
    by_cases hf : f 29 ≤ limit
    · left
      rw [shrinkLoop, if_pos hf]
      exact ⟨rfl, hf⟩
    · right
      rw [shrinkLoop, if_neg hf, if_neg (by norm_num [minFontSize])]
      refine ⟨by norm_num, ?_⟩
      exact not_le.mp hf
  | succ n ih =>
    by_cases hf : f (29 + 3 * ((n + 1 : Nat) : Int)) ≤ limit
    · refine ⟨0, Nat.zero_le _, Or.inl ?_⟩
      rw [shrinkLoop, if_pos hf]
      simp only [Nat.sub_zero]
      exact ⟨by trivial, hf⟩
    · have hstep : (29 : Int) + 3 * ((n + 1 : Nat) : Int) - 3 = 29 + 3 * (n : Int) := by
        push_cast
        ring
      have hguard : minFontSize ≤ (29 : Int) + 3 * ((n + 1 : Nat) : Int) - 3 := by
        rw [hstep]
        simp only [minFontSize]
        omega
      obtain ⟨k, hk, hcase⟩ := ih
      rcases hcase with ⟨heq, hle⟩ | ⟨heq, hall⟩
      · refine ⟨k + 1, by omega, Or.inl ?_⟩
        rw [shrinkLoop, if_neg hf, if_pos hguard, hstep]
        have hidx : (n + 1 - (k + 1) : Nat) = (n - k : Nat) := by omega
        rw [hidx]
        exact ⟨heq, hle⟩
      · refine ⟨0, Nat.zero_le _, Or.inr ?_⟩
        rw [shrinkLoop, if_neg hf, if_pos hguard, hstep]
        refine ⟨heq, ?_⟩
        intro j hj
        by_cases hjn : j ≤ n
        · exact hall j hjn
        · have hj1 : j = n + 1 := by omega
          subst hj1
          exact not_le.mp hf

/-- C5 — Shrink-to-fit termination: for any fonts, emoji detector, text,
width, CTA style, and height budget, the anchored-mode size-reduction
loop (started at the nominal body size 65) terminates after at most 12
decrements, either at a size from 65 down to the 28px floor whose
bottom-block height fits the budget, or — when every visited size
overflows — falling out at size 26 with the height last measured at 29,
which the caller then renders anyway; the loop never fails. -/
theorem shrink_to_fit_termination (env : FontEnv) (d : EmojiDetector)
    (bodyText ctaText : Str) (maxTextWidth : Int) (ctaStyle : String)
    (limit : Int) :
    ∃ k : Nat, k ≤ 12 ∧
      ((shrinkLoop (bottomBlocksTotalHeight env d bodyText ctaText maxTextWidth ctaStyle)
          limit 65 =
          (65 - 3 * (k : Int),
            bottomBlocksTotalHeight env d bodyText ctaText maxTextWidth ctaStyle
              (65 - 3 * (k : Int))) ∧
        bottomBlocksTotalHeight env d bodyText ctaText maxTextWidth ctaStyle
          (65 - 3 * (k : Int)) ≤ limit ∧
        minFontSize ≤ 65 - 3 * (k : Int)) ∨
       (shrinkLoop (bottomBlocksTotalHeight env d bodyText ctaText maxTextWidth ctaStyle)
          limit 65 = (26,
            bottomBlocksTotalHeight env d bodyText ctaText maxTextWidth ctaStyle 29) ∧
        ∀ j : Nat, j ≤ 12 → limit <
          bottomBlocksTotalHeight env d bodyText ctaText maxTextWidth ctaStyle
            (65 - 3 * (j : Int)))) := by
  obtain ⟨k, hk, hcase⟩ :=
    shrinkLoop_spec (bottomBlocksTotalHeight env d bodyText ctaText maxTextWidth ctaStyle)
      limit 12
  have h65 : (29 : Int) + 3 * ((12 : Nat) : Int) = 65 := by norm_num
  rcases hcase with ⟨heq, hle⟩ | ⟨heq, hall⟩
  · refine ⟨k, hk, Or.inl ?_⟩
    have hidx : (29 : Int) + 3 * ((12 - k : Nat) : Int) = 65 - 3 * (k : Int) := by
      push_cast [Nat.cast_sub hk]
      ring
    rw [h65, hidx] at heq
    rw [hidx] at hle
    refine ⟨heq, hle, ?_⟩
    simp only [minFontSize]
    omega
  · refine ⟨0, Nat.zero_le _, Or.inr ?_⟩
    rw [h65] at heq
    refine ⟨heq, ?_⟩
    intro j hj
    have hidx : (29 : Int) + 3 * ((12 - j : Nat) : Int) = 65 - 3 * (j : Int) := by
      push_cast [Nat.cast_sub hj]
      ring
    have := hall (12 - j) (by omega)
    rwa [hidx] at this

/-- C6 — Structured error propagation: every compose call returns a
well-formed result dictionary — on success with `url`, `filename` and
`size` present and no error; on any failure with `success=false` and a
`"Composition failed: ..."` message — and, being a total function of its
environment, never propagates an exception to the caller. -/
theorem compose_structured_result (env : ComposeEnv) (a : ComposeArgs)
    (pre : Option Image) :
    ((compose env a pre).success = true ∧ (compose env a pre).url.isSome = true ∧
      (compose env a pre).filename.isSome = true ∧
      (compose env a pre).size.isSome = true ∧ (compose env a pre).error = none) ∨
    ((compose env a pre).success = false ∧
      ∃ m, (compose env a pre).error = some ("Composition failed: " ++ m)) := by
  unfold compose
  cases hb : composeBody env a pre with
  | ok p => left; simp
  | error e => right; exact ⟨rfl, e, rfl⟩

/-- C7 — Preset error policy: an unknown `format_type` is a hard input
error (`success=false` with a descriptive message), whereas an unknown
`output_size` silently falls back to the `instagram_square` dimensions and
an unknown `safe_zone` selector silently falls back to the `"none"`
profile, the call proceeding in both cases. -/
theorem compose_format_policy :
    (∀ (env : ComposeEnv) (formatType : String) (hook body cta : Str)
      (imageUrl outputSize ctaStyle safeZone : String) (boldHook : Bool),
      formatType ∉ (["text_only", "meme", "stickers", "split"] : List String) →
      composeFormat env formatType hook body cta imageUrl outputSize ctaStyle
          safeZone boldHook =
        ⟨false, none, none, none,
          some ("Unknown format_type: " ++ formatType ++
            ". Use: text_only, meme, stickers, split")⟩) ∧
    (∀ outputSize : String, SIZES.lookup outputSize = none →
      resolveTargetSize outputSize = (1080, 1080)) ∧
    (∀ outputSize safeZone : String, safeZone ≠ "auto" →
      SAFE_ZONES.lookup safeZone = none →
      getSafeZone outputSize safeZone = some ⟨40, 40, 40, 40⟩) := by
  refine ⟨?_, ?_, ?_⟩
  · intro env formatType hook body cta imageUrl outputSize ctaStyle safeZone boldHook h
    have h1 : formatType ≠ "text_only" := by intro e; exact h (by simp [e])
    have h2 : formatType ≠ "meme" := by intro e; exact h (by simp [e])
    have h3 : formatType ≠ "stickers" := by intro e; exact h (by simp [e])
    have h4 : formatType ≠ "split" := by intro e; exact h (by simp [e])
    simp [composeFormat, h1, h2, h3, h4]
  · intro outputSize h
    have hsq : SIZES.lookup "instagram_square" = some ((1080 : Nat), (1080 : Nat)) := by
      decide
    simp [resolveTargetSize, h, hsq]
  · intro outputSize safeZone h1 h2
    simp only [getSafeZone]
    rw [if_neg h1, if_neg (by simp [h2])]
    decide

/-- An environment with no fonts, no network, and a working in-memory
storage service. -/
def sampleComposeEnv : ComposeEnv :=
  ⟨fontEnvNoFiles, noEmojiDetector, fun _ => Except.error "offline",
   fun _ => Except.error "offline", fun _ => Except.ok ("f.png", "mem://f.png")⟩

/-- Witness for C7: `format_type="gif"` is rejected with the hard input
error. -/
theorem compose_format_policy_witness :
    composeFormat sampleComposeEnv "gif" [] [] [] "" "instagram_square" "text"
        "auto" true =
      ⟨false, none, none, none,
        some ("Unknown format_type: " ++ "gif" ++
          ". Use: text_only, meme, stickers, split")⟩ :=
  compose_format_policy.1 sampleComposeEnv "gif" [] [] [] "" "instagram_square"
    "text" "auto" true (by decide)

/-- A successful compose result always carries its URL. -/
theorem compose_success_url (env : ComposeEnv) (a : ComposeArgs) (pre : Option Image) :
    (compose env a pre).success = true → (compose env a pre).url.isSome = true := by
  unfold compose
  cases hb : composeBody env a pre <;> simp

/-- The batch variation loop appends exactly the URLs of the successful
per-variation compose results, in input order. -/
theorem batchLoop_spec (env : ComposeEnv) (src outputSize : String) (base : Image) :
    ∀ (vars : List Variation) (acc : List String),
      batchLoop env src outputSize base vars acc =
        Except.ok (acc ++
          (vars.map (fun v => compose env (batchArgs src outputSize v) (some base))).filterMap
            (fun r => if r.success = true then r.url else none)) := by
  intro vars
  induction vars with
  | nil => intro acc; simp [batchLoop]
  | cons v rest ih =>
    intro acc
    rw [batchLoop]
    by_cases hs : (compose env (batchArgs src outputSize v) (some base)).success = true
    · have hu := compose_success_url env (batchArgs src outputSize v) (some base) hs
      obtain ⟨u, huu⟩ := Option.isSome_iff_exists.mp hu
      rw [if_pos hs, huu]
      show batchLoop env src outputSize base rest (acc ++ [u]) = _
      rw [ih (acc ++ [u])]
      simp [List.filterMap_cons, hs, huu]
    · rw [if_neg hs, ih acc]
      simp only [List.map_cons, List.filterMap_cons]
      rw [if_neg hs]

/-- C1 counterexample: with a storage service that fails every save, a
batch over one variation of a blank base image returns zero results — not
one result per input variation as claimed — because `batch_compose` drops
failed variations instead of reporting them. -/
def failingStorageEnv : ComposeEnv :=
  ⟨fontEnvNoFiles, noEmojiDetector, fun _ => Except.error "offline",
   fun _ => Except.error "offline", fun _ => Except.error "disk full"⟩

/-- A variation with empty hook/body/CTA text. -/
def sampleVariation : Variation := ⟨[], [], []⟩

/-- C1 counterexample (see `failingStorageEnv`): one input variation, zero
output results, while the per-variation compose call reports a structured
failure. -/
theorem batch_compose_cex :
    batchCompose failingStorageEnv "" [sampleVariation] "instagram_square" = [] ∧
    ([sampleVariation] : List Variation).length = 1 ∧
    (compose failingStorageEnv (batchArgs "" "instagram_square" sampleVariation)
      (some (imageNew (1080, 1080)))).success = false := by
  refine ⟨by decide, rfl, by decide⟩

/-- C1 amended — Batch composition: `batch_compose` decodes the base image
once and is equivalent to composing each variation against that image in
input order, except that it keeps only the URLs of the *successful*
per-variation results (failed variations contribute nothing, so the output
can be shorter than the input), and a base-image load failure yields `[]`. -/
theorem batch_compose_amended (env : ComposeEnv) (src outputSize : String)
    (vars : List Variation) :
    batchCompose env src vars outputSize =
      (match batchLoadBase env src outputSize with
       | Except.ok base =>
         (vars.map (fun v => compose env (batchArgs src outputSize v) (some base))).filterMap
           (fun r => if r.success = true then r.url else none)
       | Except.error _ => []) := by
  unfold batchCompose
  cases hb : batchLoadBase env src outputSize with
  | ok base =>
    show (match batchLoop env src outputSize base vars [] with
          | Except.ok results => results
          | Except.error _ => ([] : List String)) =
      (vars.map (fun v => compose env (batchArgs src outputSize v) (some base))).filterMap
        (fun r => if r.success = true then r.url else none)
    rw [batchLoop_spec env src outputSize base vars []]
    simp
  | error e =>
    show (match (Except.error e : Except String (List String)) with
          | Except.ok results => results
          | Except.error _ => ([] : List String)) = ([] : List String)
    rfl

/-- Witness for C3 at a concrete wrap: the words of the lines of
`"ab cd ef"` wrapped at width 60 are exactly its words. -/
theorem wrap_completeness_witness :
    ((wrapText noEmojiDetector wrapSampleText monoFont 60).map splitWords).flatten =
      splitWords wrapSampleText ∧
    wrapText noEmojiDetector [] monoFont 60 = [] :=
  wrap_completeness noEmojiDetector monoFont 60 wrapSampleText

/-- Witness for C5 at a concrete environment and budget. -/
theorem shrink_to_fit_termination_witness :
    ∃ k : Nat, k ≤ 12 ∧
      ((shrinkLoop (bottomBlocksTotalHeight fontEnvNoFiles noEmojiDetector [] [] 800 "text")
          500 65 =
          (65 - 3 * (k : Int),
            bottomBlocksTotalHeight fontEnvNoFiles noEmojiDetector [] [] 800 "text"
              (65 - 3 * (k : Int))) ∧
        bottomBlocksTotalHeight fontEnvNoFiles noEmojiDetector [] [] 800 "text"
          (65 - 3 * (k : Int)) ≤ 500 ∧
        minFontSize ≤ 65 - 3 * (k : Int)) ∨
       (shrinkLoop (bottomBlocksTotalHeight fontEnvNoFiles noEmojiDetector [] [] 800 "text")
          500 65 = (26,
            bottomBlocksTotalHeight fontEnvNoFiles noEmojiDetector [] [] 800 "text" 29) ∧
        ∀ j : Nat, j ≤ 12 → 500 <
          bottomBlocksTotalHeight fontEnvNoFiles noEmojiDetector [] [] 800 "text"
            (65 - 3 * (j : Int)))) :=
  shrink_to_fit_termination fontEnvNoFiles noEmojiDetector [] [] 800 "text" 500

/-- Witness for C6 at a concrete compose call. -/
theorem compose_structured_result_witness :
    ((compose sampleComposeEnv (batchArgs "" "instagram_square" sampleVariation)
        none).success = true ∧
      (compose sampleComposeEnv (batchArgs "" "instagram_square" sampleVariation)
        none).url.isSome = true ∧
      (compose sampleComposeEnv (batchArgs "" "instagram_square" sampleVariation)
        none).filename.isSome = true ∧
      (compose sampleComposeEnv (batchArgs "" "instagram_square" sampleVariation)
        none).size.isSome = true ∧
      (compose sampleComposeEnv (batchArgs "" "instagram_square" sampleVariation)
        none).error = none) ∨
    ((compose sampleComposeEnv (batchArgs "" "instagram_square" sampleVariation)
        none).success = false ∧
      ∃ m, (compose sampleComposeEnv (batchArgs "" "instagram_square" sampleVariation)
        none).error = some ("Composition failed: " ++ m)) :=
  compose_structured_result sampleComposeEnv
    (batchArgs "" "instagram_square" sampleVariation) none

/-- Witness for the amended C1 at a concrete batch call. -/
theorem batch_compose_amended_witness :
    batchCompose sampleComposeEnv "" [sampleVariation] "instagram_square" =
      (match batchLoadBase sampleComposeEnv "" "instagram_square" with
       | Except.ok base =>
         (([sampleVariation] : List Variation).map
             (fun v => compose sampleComposeEnv (batchArgs "" "instagram_square" v)
               (some base))).filterMap
           (fun r => if r.success = true then r.url else none)
       | Except.error _ => []) :=
  batch_compose_amended sampleComposeEnv "" "instagram_square" [sampleVariation]
